import Mathlib

set_option autoImplicit false

/-!
Shallow embedding of the GraphDB query frontend (SPARQLClient in the
client module, GraphDBApp in `static/js/app.js`, plus the shared utility
functions).  JavaScript values flowing through the result pipeline are
modelled by `JsonVal` (JSON values; `Option JsonVal` with `none` standing
for JavaScript `undefined`), JavaScript objects by association lists in
insertion order, and code that can throw by `Except String`.
-/

/-- A JSON value as produced by `response.json()`.  Numbers are modelled as
integers: the code only ever produces counts and indices. -/
inductive JsonVal : Type where
  | null : JsonVal
  | bool (b : Bool) : JsonVal
  | num (n : Int) : JsonVal
  | str (s : String) : JsonVal
  | arr (xs : List JsonVal) : JsonVal
  | obj (fields : List (String × JsonVal)) : JsonVal
deriving Repr

/-- JavaScript truthiness of a (non-`undefined`) value. -/
def jsTruthy : JsonVal → Bool
  | .null => false
  | .bool b => b
  | .num n => n != 0
  | .str s => s != ""
  | .arr _ => true
  | .obj _ => true

/-- JavaScript truthiness where `none` is `undefined`. -/
def jsTruthyOpt : Option JsonVal → Bool
  | none => false
  | some v => jsTruthy v

/-- Key lookup in an association list representing a JavaScript object
(objects have unique keys, so first match suffices). -/
def alookup {α : Type} (k : String) : List (String × α) → Option α
  | [] => none
  | p :: rest => if p.1 = k then some p.2 else alookup k rest

/-- Whether an association list carries a key. -/
def hasKey {α : Type} (fs : List (String × α)) (k : String) : Bool :=
  match fs with
  | [] => false
  | p :: rest => if p.1 = k then true else hasKey rest k

/-- Property access `o.k` on a value already known to be truthy (hence not
`null`/`undefined`): objects look the key up, primitives and arrays yield
`undefined` for the string keys the code uses. -/
def getf : JsonVal → String → Option JsonVal
  | .obj fs, k => alookup k fs
  | _, _ => none

mutual

/-- JavaScript string coercion `String(v)` as used for `Error(v)` messages
and object keys. -/
def jsToString : JsonVal → String
  | .str s => s
  | .bool b => if b then "true" else "false"
  | .null => "null"
  | .num n => toString n
  | .obj _ => "[object Object]"
  | .arr xs => String.intercalate "," (jsToStringList xs)

/-- Element-wise coercion of an array's contents. -/
def jsToStringList : List JsonVal → List String
  | [] => []
  | v :: vs => jsToString v :: jsToStringList vs

end

mutual

/-- `JSON.stringify` on a JSON value (no `undefined` inside). -/
def jsonStringify : JsonVal → String
  | .null => "null"
  | .bool b => if b then "true" else "false"
  | .num n => toString n
  | .str s => "\"" ++ ((s.replace "\\" "\\\\").replace "\"" "\\\"") ++ "\""
  | .arr xs => "[" ++ String.intercalate "," (jsonStringifyList xs) ++ "]"
  | .obj fs => "\x7b" ++ String.intercalate "," (jsonStringifyFields fs) ++ "\x7d"

/-- Serialization of an array's elements. -/
def jsonStringifyList : List JsonVal → List String
  | [] => []
  | v :: vs => jsonStringify v :: jsonStringifyList vs

/-- Serialization of an object's fields. -/
def jsonStringifyFields : List (String × JsonVal) → List String
  | [] => []
  | (k, v) :: fs => ("\"" ++ k ++ "\":" ++ jsonStringify v) :: jsonStringifyFields fs

end

/-- `v || fallbackString` coerced to a string, as in
`Error(data.detail || ...)`. -/
def jsOrString (v : Option JsonVal) (fallback : String) : String :=
  match v with
  | some x => if jsTruthy x then jsToString x else fallback
  | none => fallback

/-- Whitespace for the purposes of `String.prototype.trim`. -/
def jsIsSpace (c : Char) : Bool :=
  c == ' ' || c == '\t' || c == '\n' || c == '\r'

/-- `s.trim()`: strip leading and trailing whitespace. -/
def jsTrim (s : String) : String :=
  (((s.toList.dropWhile jsIsSpace).reverse.dropWhile jsIsSpace).reverse).asString

/-- ASCII lower-casing of one character. -/
def jsCharLower (c : Char) : Char :=
  if 65 ≤ c.toNat ∧ c.toNat ≤ 90 then Char.ofNat (c.toNat + 32) else c

/-- `s.toLowerCase()` on the ASCII query keywords the code compares. -/
def jsToLower (s : String) : String :=
  (s.toList.map jsCharLower).asString

/-- `s.startsWith(p)`. -/
def jsStartsWith (s p : String) : Bool :=
  p.toList.isPrefixOf s.toList

/-- Number of occurrences of a character in a string, modelling
`(s.match(/c/g) || []).length`. -/
def countChar (s : String) (c : Char) : Nat :=
  (s.toList.filter (fun d => d = c)).length

/-- The opening curly bracket character. -/
def openBraceChar : Char := Char.ofNat 123

/-- The closing curly bracket character. -/
def closeBraceChar : Char := Char.ofNat 125

/-- A JavaScript object built by successive property assignments: an
association list in insertion order, with cell values possibly
`undefined` (`none`). -/
abbrev JSRow : Type := List (String × Option JsonVal)

/-- Property assignment `row[k] = v`: overwrite in place if the key
exists, otherwise append. -/
def objInsert (fs : JSRow) (k : String) (v : Option JsonVal) : JSRow :=
  if hasKey fs k then
    fs.map (fun p => if p.1 = k then (k, v) else p)
  else
    fs ++ [(k, v)]

/-- Property read `row[k]`: an absent key reads as `undefined`. -/
def jsRowGet (row : JSRow) (k : String) : Option JsonVal :=
  match alookup k row with
  | some c => c
  | none => none

namespace SPARQLClient

/-- Result of `validateQuery`. -/
structure ValidationResult where
  valid : Bool
  error : Option String
deriving Repr, DecidableEq

/-- `SPARQLClient.validateQuery`: empty check, leading-keyword check
(case-insensitive, on the trimmed text), then curly-bracket balance on the
original text. -/
def validateQuery (sparql : String) : ValidationResult :=
  if jsTrim sparql = "" then
    { valid := false, error := some "Query cannot be empty" }
  else
    let trimmed := jsToLower (jsTrim sparql)
    let validKeywords := ["select", "construct", "ask", "describe", "insert", "delete", "with"]
    if ¬ validKeywords.any (fun p => jsStartsWith trimmed p) then
      { valid := false,
        error := some "Query must start with a valid SPARQL keyword (SELECT, CONSTRUCT, ASK, DESCRIBE, INSERT, DELETE, WITH)" }
    else
      let openBrackets := countChar sparql openBraceChar
      let closeBrackets := countChar sparql closeBraceChar
      if openBrackets ≠ closeBrackets then
        { valid := false, error := some "Mismatched curly brackets in query" }
      else
        { valid := true, error := none }

/-- `SPARQLClient.getQueryType`: the query form inferred from the first
keyword of the trimmed, lower-cased query text. -/
def getQueryType (sparql : String) : String :=
  if sparql = "" then "unknown"
  else
    let trimmed := jsToLower (jsTrim sparql)
    if jsStartsWith trimmed "select" then "select"
    else if jsStartsWith trimmed "construct" then "construct"
    else if jsStartsWith trimmed "ask" then "ask"
    else if jsStartsWith trimmed "describe" then "describe"
    else if jsStartsWith trimmed "insert" then "insert"
    else if jsStartsWith trimmed "delete" then "delete"
    else "unknown"

/-- Environment of one `fetch` round trip as observed by `query`:
the network fails, the body fails to parse as JSON, or a JSON payload
arrives together with the HTTP status. -/
inductive FetchOutcome : Type where
  | netError (message : String) : FetchOutcome
  | jsonError (ok : Bool) (status : Nat) (statusText : String) (message : String) : FetchOutcome
  | payload (ok : Bool) (status : Nat) (statusText : String) (data : JsonVal) : FetchOutcome
deriving Repr

/-- The object returned by `SPARQLClient.query` (both branches). -/
structure QueryResult where
  success : Bool
  results : Option JsonVal
  error : Option String
  executionTime : Nat
  query : String
deriving Repr

/-- `SPARQLClient.query`.  The empty-query check throws before the
`try` block, so it surfaces as `Except.error`; everything inside the
`try` is caught and returned as a `success: false` object.  Elapsed time
is environmental and passed in as `elapsed`. -/
def query (sparql : String) (fetch : FetchOutcome) (elapsed : Nat) :
    Except String QueryResult :=
  if jsTrim sparql = "" then
    Except.error "SPARQL query cannot be empty"
  else
    Except.ok (
      match fetch with
      | .netError msg =>
          { success := false, results := none, error := some msg,
            executionTime := elapsed, query := sparql }
      | .jsonError _ _ _ msg =>
          { success := false, results := none, error := some msg,
            executionTime := elapsed, query := sparql }
      | .payload ok status statusText data =>
          match data with
          | .null =>
              -- `data.detail` / `data.success` on a null body throws a
              -- TypeError, caught by the surrounding catch.
              { success := false, results := none, error := some "TypeError",
                executionTime := elapsed, query := sparql }
          | d =>
              if ¬ ok then
                { success := false, results := none,
                  error := some (jsOrString (getf d "detail") (s!"HTTP {status}: {statusText}")),
                  executionTime := elapsed, query := sparql }
              else if ¬ jsTruthyOpt (getf d "success") then
                { success := false, results := none,
                  error := some (jsOrString (getf d "message") "Query failed"),
                  executionTime := elapsed, query := sparql }
              else
                { success := true, results := getf d "results", error := none,
                  executionTime := elapsed, query := sparql })

/-- The formatted (normalized) result returned by `formatResults` —
one constructor per object shape the code builds.  The empty-`select`
branch has no `raw` field, hence `raw : Option JsonVal`. -/
inductive FormattedResult : Type where
  | err (error : Option String) (executionTime : Nat) : FormattedResult
  | select (headers : JsonVal) (rows : List JSRow) (count : Nat)
      (executionTime : Nat) (raw : Option JsonVal) : FormattedResult
  | ask (result : JsonVal) (executionTime : Nat) (raw : Option JsonVal) : FormattedResult
  | graph (triples : Option JsonVal) (count : Nat) (executionTime : Nat)
      (raw : Option JsonVal) : FormattedResult
  | other (qtype : String) (data : Option JsonVal) (executionTime : Nat) : FormattedResult
deriving Repr

/-- `binding[key]`: property access on one element of the bindings array;
throws a TypeError on a `null` element. -/
def bindingAccess (binding : JsonVal) (key : String) : Except String (Option JsonVal) :=
  match binding with
  | .null => Except.error "TypeError"
  | .obj fs => Except.ok (alookup key fs)
  | _ => Except.ok none

/-- `value ? value.value : ''` for one cell of a select row. -/
def cellValue (value : Option JsonVal) : Option JsonVal :=
  match value with
  | some v => if jsTruthy v then getf v "value" else some (JsonVal.str "")
  | none => some (JsonVal.str "")

/-- The body of `bindings.map(binding => ...)`: iterate `headers.forEach`
building the row object.  `headers.forEach` throws if the headers value is
truthy but not an array. -/
def buildRow (headersVal : JsonVal) (binding : JsonVal) : Except String JSRow :=
  match headersVal with
  | .arr hs =>
      hs.foldlM
        (fun row h => do
          let value ← bindingAccess binding (jsToString h)
          pure (objInsert row (jsToString h) (cellValue value)))
        []
  | _ => Except.error "TypeError"

/-- The empty tabular result returned when the response carries no
bindings (guard at the top of `formatSelectResults`). -/
def emptySelect (t : Nat) : FormattedResult :=
  FormattedResult.select (JsonVal.arr []) [] 0 t none

/-- `SPARQLClient.formatSelectResults`. -/
def formatSelectResults (results : Option JsonVal) (t : Nat) :
    Except String FormattedResult :=
  match results with
  | none => Except.ok (emptySelect t)
  | some r =>
    if ¬ jsTruthy r then Except.ok (emptySelect t)
    else
      match getf r "results" with
      | none => Except.ok (emptySelect t)
      | some rr =>
        if ¬ jsTruthy rr then Except.ok (emptySelect t)
        else
          match getf rr "bindings" with
          | none => Except.ok (emptySelect t)
          | some bnd =>
            if ¬ jsTruthy bnd then Except.ok (emptySelect t)
            else do
              -- const headers = results.head.vars || []
              let varsVal ← (match getf r "head" with
                | none => Except.error "TypeError"
                | some JsonVal.null => Except.error "TypeError"
                | some hv => Except.ok (getf hv "vars"))
              let headersVal : JsonVal :=
                match varsVal with
                | some v => if jsTruthy v then v else JsonVal.arr []
                | none => JsonVal.arr []
              -- const rows = bindings.map(...): `.map` throws on a truthy
              -- non-array bindings value
              let bindings ← (match bnd with
                | JsonVal.arr xs => Except.ok xs
                | _ => Except.error "TypeError")
              let rows ← bindings.mapM (buildRow headersVal)
              pure (FormattedResult.select headersVal rows rows.length t (some r))

/-- `SPARQLClient.formatAskResults`: `results.boolean || false`; property
access throws on a `null`/`undefined` results value. -/
def formatAskResults (results : Option JsonVal) (t : Nat) :
    Except String FormattedResult :=
  match results with
  | none => Except.error "TypeError"
  | some JsonVal.null => Except.error "TypeError"
  | some r =>
    let value : JsonVal :=
      match getf r "boolean" with
      | some v => if jsTruthy v then v else JsonVal.bool false
      | none => JsonVal.bool false
    Except.ok (FormattedResult.ask value t (some r))

/-- `SPARQLClient.formatGraphResults`: the payload is wrapped as-is;
the count is the array length, or 0 for a non-array payload. -/
def formatGraphResults (results : Option JsonVal) (t : Nat) :
    Except String FormattedResult :=
  let count : Nat :=
    match results with
    | some (JsonVal.arr xs) => xs.length
    | _ => 0
  Except.ok (FormattedResult.graph results count t results)

/-- `SPARQLClient.formatResults`: failure passthrough, then dispatch on
the query form inferred from the query text. -/
def formatResults (qr : QueryResult) : Except String FormattedResult :=
  if ¬ qr.success then
    Except.ok (FormattedResult.err qr.error qr.executionTime)
  else
    let qt := getQueryType qr.query
    if qt = "select" then formatSelectResults qr.results qr.executionTime
    else if qt = "ask" then formatAskResults qr.results qr.executionTime
    else if qt = "construct" ∨ qt = "describe" then formatGraphResults qr.results qr.executionTime
    else Except.ok (FormattedResult.other qt qr.results qr.executionTime)

end SPARQLClient

/-- `Math.ceil(a / b)` on non-negative integers. -/
def jsCeilDiv (a b : Nat) : Nat := (a + b - 1) / b

/-- `xs.slice(s, e)` for `0 ≤ s` and `0 ≤ e`. -/
def jsSlice {α : Type} (xs : List α) (s e : Nat) : List α := (xs.take e).drop s

namespace GraphDBApp

/-- The pagination slice computed inside `displaySelectResults`:
`startIndex = (currentPage - 1) * pageSize`,
`endIndex = min(startIndex + pageSize, rows.length)`.
`currentPage` is at least 1 whenever the method runs (it is initialised
to 1 and `goToPage` never moves it below 1). -/
def paginatedRows (rows : List JSRow) (pageSize currentPage : Nat) : List JSRow :=
  let startIndex := (currentPage - 1) * pageSize
  let endIndex := min (startIndex + pageSize) rows.length
  jsSlice rows startIndex endIndex

/-- `this.currentResults && this.currentResults.rows`: only a select
result carries a `rows` field (a JavaScript array, truthy even when
empty). -/
def resultRows : Option SPARQLClient.FormattedResult → Option (List JSRow)
  | some (SPARQLClient.FormattedResult.select _ rows _ _ _) => some rows
  | _ => none

/-- `GraphDBApp.goToPage`: returns the new `currentPage` (unchanged when
the guard rejects the request). -/
def goToPage (currentResults : Option SPARQLClient.FormattedResult)
    (pageSize : Nat) (currentPage page : Int) : Int :=
  match resultRows currentResults with
  | none => currentPage
  | some rows =>
    let totalPages : Int := (jsCeilDiv rows.length pageSize : Nat)
    if page < 1 ∨ totalPages < page then currentPage
    else page

/-- One entry of the query history. -/
structure HistoryEntry where
  query : String
  timestamp : String
  success : Bool
  executionTime : Nat
  qtype : Option String
  count : Nat
deriving Repr, DecidableEq

/-- The fields `addToQueryHistory` reads from its `results` argument
(`results.count` may be absent, e.g. for an ask result). -/
structure ResultsSummary where
  success : Bool
  executionTime : Nat
  qtype : Option String
  count : Option Nat
deriving Repr, DecidableEq

/-- The history entry object built at the top of `addToQueryHistory`
(`count: results.count || 0`). -/
def mkHistoryEntry (query timestamp : String) (r : ResultsSummary) : HistoryEntry :=
  { query := query, timestamp := timestamp, success := r.success,
    executionTime := r.executionTime, qtype := r.qtype, count := r.count.getD 0 }

/-- `unshift` followed by the 50-entry truncation. -/
def pushBounded (entry : HistoryEntry) (history : List HistoryEntry) : List HistoryEntry :=
  let h2 := entry :: history
  if h2.length > 50 then h2.take 50 else h2

/-- `GraphDBApp.addToQueryHistory`: drop the new entry when its query
text equals the query text of the current front entry, otherwise push
it to the front and truncate to 50 entries. -/
def addToQueryHistory (history : List HistoryEntry) (query timestamp : String)
    (r : ResultsSummary) : List HistoryEntry :=
  let entry := mkHistoryEntry query timestamp r
  match history with
  | e0 :: rest => if e0.query = query then e0 :: rest else pushBounded entry (e0 :: rest)
  | [] => pushBounded entry []

/-- What `GraphDBApp.executeQuery` does before any network activity:
warn on an empty editor, reject on failed validation, otherwise hand the
trimmed text to the client.  Only `runQuery` reaches the network. -/
inductive ExecuteAction : Type where
  | emptyWarning : ExecuteAction
  | validationError (message : String) : ExecuteAction
  | runQuery (sparql : String) : ExecuteAction
deriving Repr, DecidableEq

/-- The dispatch prefix of `GraphDBApp.executeQuery` on the editor
content. -/
def executeQueryDispatch (input : String) : ExecuteAction :=
  let sparql := jsTrim input
  if sparql = "" then ExecuteAction.emptyWarning
  else
    let validation := SPARQLClient.validateQuery sparql
    if ¬ validation.valid then ExecuteAction.validationError (validation.error.getD "")
    else ExecuteAction.runQuery sparql

end GraphDBApp

/-- `value?.toString().replace(/"/g, '""') || ''` for one CSV cell:
`undefined`/`null` short-circuit to `undefined`, hence `''`. -/
def csvEscape (value : Option JsonVal) : String :=
  match value with
  | none => ""
  | some JsonVal.null => ""
  | some v => (jsToString v).replace "\"" "\"\""

/-- One serialized CSV field: quoted iff the escaped text contains a
comma. -/
def csvField (value : Option JsonVal) : String :=
  let escaped := csvEscape value
  if escaped.contains ',' then "\"" ++ escaped ++ "\"" else escaped

/-- The utility `exportToCSV(data)`: `none` models the early return on
empty data (no artifact); otherwise the produced CSV text.  Headers are
the keys of the first row, and every row is projected onto them. -/
def exportToCSV (data : List JSRow) : Option String :=
  match data with
  | [] => none
  | first :: rest =>
    let headers := first.map Prod.fst
    some (String.intercalate "\n"
      (String.intercalate "," headers ::
        (first :: rest).map (fun row =>
          String.intercalate "," (headers.map (fun h => csvField (jsRowGet row h))))))

namespace GraphDBApp

/-- A select row as a JSON object (cells are never `undefined` in rows
the formatter builds). -/
def rowToJson (row : JSRow) : JsonVal :=
  JsonVal.obj (row.filterMap (fun p => p.2.map (fun v => (p.1, v))))

/-- A formatted result viewed as a plain JavaScript object, as used by
the `data = [this.currentResults]` fallback of `exportToCSV`. -/
def formattedToRow : SPARQLClient.FormattedResult → JSRow
  | SPARQLClient.FormattedResult.err e t =>
      [("success", some (JsonVal.bool false)), ("error", e.map JsonVal.str),
       ("executionTime", some (JsonVal.num t))]
  | SPARQLClient.FormattedResult.select h rows c t raw =>
      [("success", some (JsonVal.bool true)), ("type", some (JsonVal.str "select")),
       ("headers", some h), ("rows", some (JsonVal.arr (rows.map rowToJson))),
       ("count", some (JsonVal.num c)), ("executionTime", some (JsonVal.num t)),
       ("raw", raw)]
  | SPARQLClient.FormattedResult.ask res t raw =>
      [("success", some (JsonVal.bool true)), ("type", some (JsonVal.str "ask")),
       ("result", some res), ("executionTime", some (JsonVal.num t)), ("raw", raw)]
  | SPARQLClient.FormattedResult.graph tr c t raw =>
      [("success", some (JsonVal.bool true)), ("type", some (JsonVal.str "graph")),
       ("triples", tr), ("count", some (JsonVal.num c)),
       ("executionTime", some (JsonVal.num t)), ("raw", raw)]
  | SPARQLClient.FormattedResult.other qt d t =>
      [("success", some (JsonVal.bool true)), ("type", some (JsonVal.str qt)),
       ("data", d), ("executionTime", some (JsonVal.num t))]

/-- The row set `GraphDBApp.exportToCSV` derives from the current result:
select rows as-is; a single-row table for ask; indexed serialized triples
for an array-valued graph payload, a single serialized row for any other
truthy payload; otherwise the `[this.currentResults]` fallback. -/
def deriveExportData (cur : SPARQLClient.FormattedResult) : List JSRow :=
  match cur with
  | SPARQLClient.FormattedResult.select _ rows _ _ _ => rows
  | SPARQLClient.FormattedResult.ask res _ _ => [[("result", some res)]]
  | SPARQLClient.FormattedResult.graph (some tv) c t raw =>
      if jsTruthy tv then
        match tv with
        | JsonVal.arr ts =>
            ts.enum.map (fun p =>
              [("index", some (JsonVal.num (p.1 + 1))),
               ("triple", some (JsonVal.str (jsonStringify p.2)))])
        | _ => [[("data", some (JsonVal.str (jsonStringify tv)))]]
      else
        [formattedToRow (SPARQLClient.FormattedResult.graph (some tv) c t raw)]
  | fr => [formattedToRow fr]

/-- The outcome of `GraphDBApp.exportToCSV`: either the
'No data to export' warning with no artifact, or the CSV artifact handed
to the download utility. -/
inductive ExportOutcome : Type where
  | emptyWarning : ExportOutcome
  | file (csv : String) : ExportOutcome
deriving Repr, DecidableEq

/-- `GraphDBApp.exportToCSV` (filename/timestamp handling elided: the
content handed over is determined by the derived data). -/
def appExportToCSV (cur : SPARQLClient.FormattedResult) : ExportOutcome :=
  let data := deriveExportData cur
  if data.length = 0 then ExportOutcome.emptyWarning
  else
    match exportToCSV data with
    | some csv => ExportOutcome.file csv
    | none => ExportOutcome.emptyWarning

end GraphDBApp

/-- The SPARQL-JSON encoding of one binding: each bound variable maps to
an object whose `value` field is the bound string. -/
def mkBindingFields (bd : List (String × String)) : List (String × JsonVal) :=
  bd.map (fun p => (p.1, JsonVal.obj [("value", JsonVal.str p.2)]))

/-- One binding object of a SPARQL-JSON select response. -/
def mkBinding (bd : List (String × String)) : JsonVal :=
  JsonVal.obj (mkBindingFields bd)

/-- A well-formed SPARQL-JSON select response with declared variables `v`
and binding sequence `b`. -/
def mkSelectResponse (v : List String) (b : List (List (String × String))) : JsonVal :=
  JsonVal.obj
    [("head", JsonVal.obj [("vars", JsonVal.arr (v.map JsonVal.str))]),
     ("results", JsonVal.obj [("bindings", JsonVal.arr (b.map mkBinding))])]

/-- The row object `formatSelectResults` builds for one binding: every
declared variable becomes a key, bound to its value or to the empty
string. -/
def rowFor (hs : List String) (bd : List (String × String)) : JSRow :=
  hs.foldl
    (fun row k => objInsert row k (some (JsonVal.str ((alookup k bd).getD ""))))
    []

/-- A concrete 120-row tabular result used to exercise pagination. -/
def rows120 : List JSRow :=
  (List.range 120).map (fun i => [("x", some (JsonVal.num i))])


/-! ### Association-list helper lemmas -/

theorem alookup_map_overwrite (k : String) (v : Option JsonVal) :
    ∀ fs : JSRow, hasKey fs k = true →
      alookup k (fs.map (fun p => if p.1 = k then (k, v) else p)) = some v := by
  intro fs
  induction fs with
  | nil => intro h; simp [hasKey] at h
  | cons p rest ih =>
    intro h
    by_cases hk : p.1 = k
    · simp [alookup, hk]
    · rw [hasKey, if_neg hk] at h
      simp only [List.map_cons, if_neg hk]
      rw [alookup, if_neg hk]
      exact ih h

theorem alookup_append_absent (k : String) (v : Option JsonVal) :
    ∀ fs : JSRow, hasKey fs k = false →
      alookup k (fs ++ [(k, v)]) = some v := by
  intro fs
  induction fs with
  | nil => simp [alookup]
  | cons p rest ih =>
    intro h
    by_cases hk : p.1 = k
    · rw [hasKey, if_pos hk] at h; exact absurd h (by simp)
    · rw [hasKey, if_neg hk] at h
      rw [List.cons_append, alookup, if_neg hk]
      exact ih h

theorem alookup_objInsert_self (fs : JSRow) (k : String) (v : Option JsonVal) :
    alookup k (objInsert fs k v) = some v := by
  unfold objInsert
  by_cases h : hasKey fs k
  · rw [if_pos h]; exact alookup_map_overwrite k v fs h
  · rw [if_neg h]
    exact alookup_append_absent k v fs (Bool.eq_false_iff.mpr h)

theorem alookup_objInsert_ne (fs : JSRow) (k q : String) (v : Option JsonVal)
    (h : k ≠ q) :
    alookup k (objInsert fs q v) = alookup k fs := by
  unfold objInsert
  by_cases ha : hasKey fs q
  · rw [if_pos ha]
    clear ha
    induction fs with
    | nil => simp
    | cons p rest ih =>
      have hqk : ¬ q = k := fun he => h he.symm
      by_cases hq : p.1 = q
      · have hpk : ¬ p.1 = k := by rw [hq]; exact hqk
        simp only [List.map_cons, if_pos hq]
        rw [alookup, alookup, if_neg hqk, if_neg hpk]
        exact ih
      · simp only [List.map_cons, if_neg hq]
        rw [alookup, alookup]
        by_cases hp : p.1 = k
        · rw [if_pos hp, if_pos hp]
        · rw [if_neg hp, if_neg hp]
          exact ih
  · rw [if_neg ha]
    clear ha
    induction fs with
    | nil =>
      have hqk : ¬ q = k := fun he => h he.symm
      simp only [List.nil_append, alookup]
      rw [if_neg hqk]
    | cons p rest ih =>
      rw [List.cons_append, alookup, alookup]
      by_cases hp : p.1 = k
      · rw [if_pos hp, if_pos hp]
      · rw [if_neg hp, if_neg hp]
        exact ih

/-- Looking a key up in a row built by a fold of property assignments
whose assigned value depends only on the key. -/
theorem alookup_foldl_objInsert (f : String → Option JsonVal) :
    ∀ (hs : List String) (init : JSRow) (k : String),
      alookup k (hs.foldl (fun row h => objInsert row h (f h)) init) =
        if k ∈ hs then some (f k) else alookup k init := by
  intro hs
  induction hs with
  | nil => intro init k; simp
  | cons h0 rest ih =>
    intro init k
    rw [List.foldl_cons, ih]
    by_cases hk : k ∈ rest
    · simp [hk]
    · by_cases he : k = h0
      · subst he
        simp [hk, alookup_objInsert_self]
      · simp [hk, he, alookup_objInsert_ne init k h0 (f h0) he]

/-! ### Select-normalization helper lemmas -/

theorem alookup_mkBindingFields (k : String) (bd : List (String × String)) :
    alookup k (mkBindingFields bd) =
      (alookup k bd).map (fun s => JsonVal.obj [("value", JsonVal.str s)]) := by
  induction bd with
  | nil => rfl
  | cons p rest ih =>
    simp only [mkBindingFields, List.map_cons, alookup] at *
    by_cases hp : p.1 = k
    · rw [if_pos hp, if_pos hp]; rfl
    · rw [if_neg hp, if_neg hp]; exact ih

theorem cellValue_mkBinding (k : String) (bd : List (String × String)) :
    SPARQLClient.cellValue (alookup k (mkBindingFields bd)) =
      some (JsonVal.str ((alookup k bd).getD "")) := by
  rw [alookup_mkBindingFields]
  cases alookup k bd with
  | none => rfl
  | some s => rfl

theorem foldlM_buildRow (fs : List (String × JsonVal)) :
    ∀ (hs : List String) (acc : JSRow),
      ((hs.map JsonVal.str).foldlM
        (fun row h => do
          let value ← SPARQLClient.bindingAccess (JsonVal.obj fs) (jsToString h)
          pure (objInsert row (jsToString h) (SPARQLClient.cellValue value)))
        acc)
      = Except.ok (hs.foldl
          (fun row k => objInsert row k (SPARQLClient.cellValue (alookup k fs))) acc) := by
  intro hs
  induction hs with
  | nil => intro acc; rfl
  | cons h0 rest ih =>
    intro acc
    exact ih (objInsert acc h0 (SPARQLClient.cellValue (alookup h0 fs)))

/-- `buildRow` on the declared-variable headers and a well-formed binding
object produces exactly the row with one key per declared variable,
unbound variables mapping to the empty string. -/
theorem buildRow_mkBinding (hs : List String) (bd : List (String × String)) :
    SPARQLClient.buildRow (JsonVal.arr (hs.map JsonVal.str)) (mkBinding bd) =
      Except.ok (rowFor hs bd) := by
  calc SPARQLClient.buildRow (JsonVal.arr (hs.map JsonVal.str)) (mkBinding bd)
      = Except.ok (hs.foldl
          (fun row k => objInsert row k
            (SPARQLClient.cellValue (alookup k (mkBindingFields bd)))) []) :=
        foldlM_buildRow (mkBindingFields bd) hs []
    _ = Except.ok (rowFor hs bd) := by
        rw [rowFor]; simp only [cellValue_mkBinding]

theorem mapM_buildRow (hs : List String) (b : List (List (String × String))) :
    (b.map mkBinding).mapM (SPARQLClient.buildRow (JsonVal.arr (hs.map JsonVal.str))) =
      Except.ok (b.map (rowFor hs)) := by
  induction b with
  | nil => rfl
  | cons bd rest ih =>
    rw [List.map_cons, List.map_cons, List.mapM_cons, buildRow_mkBinding, ih]
    rfl

/-- Evaluating `formatSelectResults` on a well-formed select response. -/
theorem formatSelectResults_mk (v : List String) (b : List (List (String × String)))
    (t : Nat) :
    SPARQLClient.formatSelectResults (some (mkSelectResponse v b)) t =
      Except.ok (SPARQLClient.FormattedResult.select (JsonVal.arr (v.map JsonVal.str))
        (b.map (rowFor v)) (b.map (rowFor v)).length t (some (mkSelectResponse v b))) := by
  have h1 : SPARQLClient.formatSelectResults (some (mkSelectResponse v b)) t
      = ((b.map mkBinding).mapM
            (SPARQLClient.buildRow (JsonVal.arr (v.map JsonVal.str)))) >>=
          (fun rows => pure (SPARQLClient.FormattedResult.select
            (JsonVal.arr (v.map JsonVal.str)) rows rows.length t
            (some (mkSelectResponse v b)))) := rfl
  rw [h1, mapM_buildRow]
  rfl

/-- The lookup behaviour of the row built for one binding. -/
theorem rowFor_alookup (v : List String) (bd : List (String × String)) (k : String) :
    alookup k (rowFor v bd) =
      if k ∈ v then some (some (JsonVal.str ((alookup k bd).getD ""))) else none := by
  have h := alookup_foldl_objInsert
    (fun k => some (JsonVal.str ((alookup k bd).getD ""))) v [] k
  rw [rowFor]
  rw [h]
  rfl

/-- C1: for every non-empty query text whose first keyword is `select`
and every successful response with declared variables `v` and binding
sequence `b`, normalization produces a tabular result whose row sequence
has the length of `b`, where every row has exactly the keys in `v` and a
variable unbound in a binding is mapped to the empty string (the key is
never omitted). -/
theorem C1_select_normalization (q : String) (v : List String)
    (b : List (List (String × String))) (t : Nat)
    (hq : SPARQLClient.getQueryType q = "select") :
    ∃ rows : List JSRow,
      SPARQLClient.formatResults
          { success := true, results := some (mkSelectResponse v b), error := none,
            executionTime := t, query := q } =
        Except.ok (SPARQLClient.FormattedResult.select (JsonVal.arr (v.map JsonVal.str))
          rows rows.length t (some (mkSelectResponse v b)))
      ∧ rows.length = b.length
      ∧ List.Forall₂ (fun (row : JSRow) (bd : List (String × String)) =>
          (∀ k : String, (alookup k row).isSome = true ↔ k ∈ v)
          ∧ (∀ k ∈ v, alookup k row = some (some (JsonVal.str ((alookup k bd).getD "")))))
        rows b := by
  refine ⟨b.map (rowFor v), ?_, List.length_map b (rowFor v), ?_⟩
  · have hdispatch : SPARQLClient.formatResults
        { success := true, results := some (mkSelectResponse v b), error := none,
          executionTime := t, query := q }
        = SPARQLClient.formatSelectResults (some (mkSelectResponse v b)) t := by
      simp [SPARQLClient.formatResults, hq]
    rw [hdispatch]
    exact formatSelectResults_mk v b t
  · induction b with
    | nil => exact List.Forall₂.nil
    | cons bd rest ih =>
      rw [List.map_cons]
      refine List.Forall₂.cons ⟨?_, ?_⟩ ih
      · intro k
        rw [rowFor_alookup]
        by_cases hk : k ∈ v
        · simp [hk]
        · simp [hk]
      · intro k hk
        rw [rowFor_alookup, if_pos hk]

/-- Witness for C1 at a concrete select query, declared variables
`["s", "p"]` and two bindings, the second leaving `p` unbound. -/
theorem C1_select_normalization_witness :
    ∃ rows : List JSRow,
      SPARQLClient.formatResults
          { success := true,
            results := some (mkSelectResponse ["s", "p"] [[("s", "a"), ("p", "b")], [("s", "c")]]),
            error := none, executionTime := 5, query := "select ?s ?p where" } =
        Except.ok (SPARQLClient.FormattedResult.select
          (JsonVal.arr (["s", "p"].map JsonVal.str))
          rows rows.length 5
          (some (mkSelectResponse ["s", "p"] [[("s", "a"), ("p", "b")], [("s", "c")]])))
      ∧ rows.length = [[("s", "a"), ("p", "b")], [("s", "c")]].length
      ∧ List.Forall₂ (fun (row : JSRow) (bd : List (String × String)) =>
          (∀ k : String, (alookup k row).isSome = true ↔ k ∈ ["s", "p"])
          ∧ (∀ k ∈ ["s", "p"],
              alookup k row = some (some (JsonVal.str ((alookup k bd).getD "")))))
        rows [[("s", "a"), ("p", "b")], [("s", "c")]] :=
  C1_select_normalization "select ?s ?p where" ["s", "p"]
    [[("s", "a"), ("p", "b")], [("s", "c")]] 5 (by decide)

/-- C2 counterexample: a transport-level failure (network rejection) and
an application-level failure (success flag false) with the same message
produce structurally identical outcomes whose `error` field is the raw
message string — the two failure classes carry no classified error kind
and are not distinguishable by the caller. -/
theorem C2_counterexample :
    SPARQLClient.query "ask" (SPARQLClient.FetchOutcome.netError "boom") 7 =
      Except.ok { success := false, results := none, error := some "boom",
                  executionTime := 7, query := "ask" }
    ∧ SPARQLClient.query "ask"
        (SPARQLClient.FetchOutcome.payload true 200 "OK"
          (JsonVal.obj [("success", JsonVal.bool false), ("message", JsonVal.str "boom")])) 7 =
      Except.ok { success := false, results := none, error := some "boom",
                  executionTime := 7, query := "ask" } :=
  ⟨rfl, rfl⟩

/-- C2 (amended): every transport-level failure — no response (the fetch
rejects), a malformed payload (the body fails to parse as JSON), or a
non-2xx status (with or without a `detail` field) — and every well-formed
response whose own success flag is false yield a `success: false` outcome
whose `error` field is the raw message string; the transport and
application failure classes are represented identically and are therefore
not distinguishable by a classified reason field. -/
theorem C2_failure_reason_is_raw_message (s msg detail statusText : String)
    (status elapsed : Nat) (hs : jsTrim s ≠ "") :
    (SPARQLClient.query s (SPARQLClient.FetchOutcome.netError msg) elapsed =
      Except.ok { success := false, results := none, error := some msg,
                  executionTime := elapsed, query := s })
    ∧ (∀ ok2 : Bool,
      SPARQLClient.query s
          (SPARQLClient.FetchOutcome.jsonError ok2 status statusText msg) elapsed =
        Except.ok { success := false, results := none, error := some msg,
                    executionTime := elapsed, query := s })
    ∧ (detail ≠ "" →
      SPARQLClient.query s
          (SPARQLClient.FetchOutcome.payload false status statusText
            (JsonVal.obj [("detail", JsonVal.str detail)])) elapsed =
        Except.ok { success := false, results := none, error := some detail,
                    executionTime := elapsed, query := s })
    ∧ (SPARQLClient.query s
          (SPARQLClient.FetchOutcome.payload false status statusText
            (JsonVal.obj [])) elapsed =
        Except.ok { success := false, results := none,
                    error := some (s!"HTTP {status}: {statusText}"),
                    executionTime := elapsed, query := s })
    ∧ (msg ≠ "" →
      SPARQLClient.query s
          (SPARQLClient.FetchOutcome.payload true status statusText
            (JsonVal.obj [("success", JsonVal.bool false), ("message", JsonVal.str msg)]))
          elapsed =
        Except.ok { success := false, results := none, error := some msg,
                    executionTime := elapsed, query := s })
    ∧ (msg ≠ "" →
      SPARQLClient.query s (SPARQLClient.FetchOutcome.netError msg) elapsed =
        SPARQLClient.query s
          (SPARQLClient.FetchOutcome.payload true status statusText
            (JsonVal.obj [("success", JsonVal.bool false), ("message", JsonVal.str msg)]))
          elapsed) := by
  have h1 : SPARQLClient.query s (SPARQLClient.FetchOutcome.netError msg) elapsed =
      Except.ok { success := false, results := none, error := some msg,
                  executionTime := elapsed, query := s } := by
    rw [SPARQLClient.query, if_neg hs]
  have h2 : ∀ ok2 : Bool,
      SPARQLClient.query s
          (SPARQLClient.FetchOutcome.jsonError ok2 status statusText msg) elapsed =
        Except.ok { success := false, results := none, error := some msg,
                    executionTime := elapsed, query := s } := by
    intro ok2
    rw [SPARQLClient.query, if_neg hs]
  have h3 : detail ≠ "" →
      SPARQLClient.query s
          (SPARQLClient.FetchOutcome.payload false status statusText
            (JsonVal.obj [("detail", JsonVal.str detail)])) elapsed =
        Except.ok { success := false, results := none, error := some detail,
                    executionTime := elapsed, query := s } := by
    intro hd
    have hstep : SPARQLClient.query s
        (SPARQLClient.FetchOutcome.payload false status statusText
          (JsonVal.obj [("detail", JsonVal.str detail)])) elapsed =
        Except.ok { success := false, results := none,
                    error := some (jsOrString (some (JsonVal.str detail))
                      (s!"HTTP {status}: {statusText}")),
                    executionTime := elapsed, query := s } := by
      rw [SPARQLClient.query, if_neg hs]
      · simp [getf, alookup]
      · simp
    rw [hstep,
      show jsOrString (some (JsonVal.str detail)) (s!"HTTP {status}: {statusText}") = detail
        from by simp [jsOrString, jsTruthy, jsToString, hd]]
  have h4 : SPARQLClient.query s
      (SPARQLClient.FetchOutcome.payload false status statusText
        (JsonVal.obj [])) elapsed =
      Except.ok { success := false, results := none,
                  error := some (s!"HTTP {status}: {statusText}"),
                  executionTime := elapsed, query := s } := by
    rw [SPARQLClient.query, if_neg hs]
    · simp [getf, alookup, jsOrString]
    · simp
  have h5 : msg ≠ "" →
      SPARQLClient.query s
          (SPARQLClient.FetchOutcome.payload true status statusText
            (JsonVal.obj [("success", JsonVal.bool false), ("message", JsonVal.str msg)]))
          elapsed =
        Except.ok { success := false, results := none, error := some msg,
                    executionTime := elapsed, query := s } := by
    intro hm
    have hstep : SPARQLClient.query s
        (SPARQLClient.FetchOutcome.payload true status statusText
          (JsonVal.obj [("success", JsonVal.bool false), ("message", JsonVal.str msg)]))
        elapsed =
        Except.ok { success := false, results := none,
                    error := some (jsOrString (some (JsonVal.str msg)) "Query failed"),
                    executionTime := elapsed, query := s } := by
      rw [SPARQLClient.query, if_neg hs]
      · simp [getf, alookup, jsTruthy, jsTruthyOpt]
      · simp
    rw [hstep, show jsOrString (some (JsonVal.str msg)) "Query failed" = msg from by
      simp [jsOrString, jsTruthy, jsToString, hm]]
  exact ⟨h1, h2, h3, h4, h5, fun hm => by rw [h1, h5 hm]⟩

/-- Witness for the amended C2: at one concrete query, a network
rejection, a JSON parse failure, a 500 status with and without a detail
field, and an application failure all produce raw-message
`success: false` outcomes, the last indistinguishable from the network
rejection. -/
theorem C2_failure_reason_is_raw_message_witness :
    (SPARQLClient.query "ask WHERE" (SPARQLClient.FetchOutcome.netError "err1") 3 =
      Except.ok { success := false, results := none, error := some "err1",
                  executionTime := 3, query := "ask WHERE" })
    ∧ (SPARQLClient.query "ask WHERE"
        (SPARQLClient.FetchOutcome.jsonError false 500 "Server Error" "err1") 3 =
      Except.ok { success := false, results := none, error := some "err1",
                  executionTime := 3, query := "ask WHERE" })
    ∧ (SPARQLClient.query "ask WHERE"
        (SPARQLClient.FetchOutcome.payload false 500 "Server Error"
          (JsonVal.obj [("detail", JsonVal.str "bad query")])) 3 =
      Except.ok { success := false, results := none, error := some "bad query",
                  executionTime := 3, query := "ask WHERE" })
    ∧ (SPARQLClient.query "ask WHERE"
        (SPARQLClient.FetchOutcome.payload false 500 "Server Error"
          (JsonVal.obj [])) 3 =
      Except.ok { success := false, results := none,
                  error := some "HTTP 500: Server Error",
                  executionTime := 3, query := "ask WHERE" })
    ∧ (SPARQLClient.query "ask WHERE"
        (SPARQLClient.FetchOutcome.payload true 500 "Server Error"
          (JsonVal.obj [("success", JsonVal.bool false), ("message", JsonVal.str "err1")])) 3 =
      Except.ok { success := false, results := none, error := some "err1",
                  executionTime := 3, query := "ask WHERE" })
    ∧ (SPARQLClient.query "ask WHERE" (SPARQLClient.FetchOutcome.netError "err1") 3 =
      SPARQLClient.query "ask WHERE"
        (SPARQLClient.FetchOutcome.payload true 500 "Server Error"
          (JsonVal.obj [("success", JsonVal.bool false), ("message", JsonVal.str "err1")])) 3) := by
  have h := C2_failure_reason_is_raw_message "ask WHERE" "err1" "bad query" "Server Error"
    500 3 (by decide)
  exact ⟨h.1, h.2.1 false, h.2.2.1 (by decide), h.2.2.2.1, h.2.2.2.2.1 (by decide),
    h.2.2.2.2.2 (by decide)⟩

/-- C3 counterexample: for the whitespace-only query text the client
`query` operation raises the validation failure as an exception
(`Except.error`) past its boundary instead of returning a discriminated
failure outcome. -/
theorem C3_counterexample :
    SPARQLClient.query "   " (SPARQLClient.FetchOutcome.netError "unreachable") 3 =
      Except.error "SPARQL query cannot be empty" := by
  rw [SPARQLClient.query.eq_def, if_pos (show jsTrim "   " = "" by decide)]

/-- C3 (amended): for every empty or whitespace-only query text,
`SPARQLClient.query` fails fast by throwing `'SPARQL query cannot be
empty'` before any network activity (the outcome does not depend on the
fetch environment), and the app-level `executeQuery` independently
rejects such input with a warning before invoking the client; the
rejection is an exception from the client, not a discriminated failure
outcome. -/
theorem C3_empty_query_fails_fast (s : String) (f : SPARQLClient.FetchOutcome)
    (elapsed : Nat) (h : jsTrim s = "") :
    SPARQLClient.query s f elapsed = Except.error "SPARQL query cannot be empty"
    ∧ GraphDBApp.executeQueryDispatch s = GraphDBApp.ExecuteAction.emptyWarning := by
  constructor
  · rw [SPARQLClient.query.eq_def, if_pos h]
  · rw [GraphDBApp.executeQueryDispatch]
    simp [h]

/-- Witness for the amended C3 at the whitespace-only query text. -/
theorem C3_empty_query_fails_fast_witness :
    SPARQLClient.query " \t " (SPARQLClient.FetchOutcome.netError "x") 0 =
      Except.error "SPARQL query cannot be empty"
    ∧ GraphDBApp.executeQueryDispatch " \t " = GraphDBApp.ExecuteAction.emptyWarning :=
  C3_empty_query_fails_fast " \t " (SPARQLClient.FetchOutcome.netError "x") 0 (by decide)

/-- C6: for every successful response to an `ask` query in which the
boolean field is absent, normalization yields the boolean-false result as
a valid outcome, not a failure. -/
theorem C6_ask_missing_boolean (fields : List (String × JsonVal)) (t : Nat) (q : String)
    (hq : SPARQLClient.getQueryType q = "ask")
    (hb : alookup "boolean" fields = none) :
    SPARQLClient.formatResults
        { success := true, results := some (JsonVal.obj fields), error := none,
          executionTime := t, query := q } =
      Except.ok (SPARQLClient.FormattedResult.ask (JsonVal.bool false) t
        (some (JsonVal.obj fields))) := by
  have hdispatch : SPARQLClient.formatResults
      { success := true, results := some (JsonVal.obj fields), error := none,
        executionTime := t, query := q }
      = SPARQLClient.formatAskResults (some (JsonVal.obj fields)) t := by
    simp [SPARQLClient.formatResults, hq]
  rw [hdispatch]
  simp [SPARQLClient.formatAskResults, getf, hb]

/-- Witness for C6: an `ask` query whose response object has no boolean
field. -/
theorem C6_ask_missing_boolean_witness :
    SPARQLClient.formatResults
        { success := true, results := some (JsonVal.obj [("other", JsonVal.num 1)]),
          error := none, executionTime := 3, query := "ASK WHERE" } =
      Except.ok (SPARQLClient.FormattedResult.ask (JsonVal.bool false) 3
        (some (JsonVal.obj [("other", JsonVal.num 1)]))) :=
  C6_ask_missing_boolean [("other", JsonVal.num 1)] 3 "ASK WHERE" (by decide) rfl

/-- C8: normalization is deterministic — applying `formatResults` to
structurally equal `(queryText, outcome)` inputs yields structurally
equal normalized results, so normalizing the same pair twice gives
identical results. -/
theorem C8_normalize_deterministic (a b : SPARQLClient.QueryResult) (h : a = b) :
    SPARQLClient.formatResults a = SPARQLClient.formatResults b := by
  rw [h]

/-- Witness for C8: the two normalizations of one concrete outcome are
equal. -/
theorem C8_normalize_deterministic_witness :
    SPARQLClient.formatResults
        { success := true, results := some (JsonVal.obj []), error := none,
          executionTime := 3, query := "ask" } =
      SPARQLClient.formatResults
        { success := true, results := some (JsonVal.obj []), error := none,
          executionTime := 3, query := "ask" } :=
  C8_normalize_deterministic _ _ rfl

/-- C9: a query text beginning with a recognized keyword but whose count
of opening curly brackets differs from the count of closing ones is
reported invalid with 'Mismatched curly brackets in query' and is never
handed to the network (the dispatcher stops with a validation error). -/
theorem C9_brace_validation (s : String)
    (hts : jsTrim s = s) (hne : s ≠ "")
    (hkw : (["select", "construct", "ask", "describe", "insert", "delete", "with"].any
      (fun p => jsStartsWith (jsToLower s) p)) = true)
    (hbr : countChar s openBraceChar ≠ countChar s closeBraceChar) :
    SPARQLClient.validateQuery s =
      { valid := false, error := some "Mismatched curly brackets in query" }
    ∧ GraphDBApp.executeQueryDispatch s =
      GraphDBApp.ExecuteAction.validationError "Mismatched curly brackets in query" := by
  have hv : SPARQLClient.validateQuery s =
      { valid := false, error := some "Mismatched curly brackets in query" } := by
    rw [SPARQLClient.validateQuery]
    rw [hts]
    rw [if_neg hne]
    simp [hkw, hbr]
  refine ⟨hv, ?_⟩
  rw [GraphDBApp.executeQueryDispatch]
  simp [hts, hne, hv]

/-- Witness for C9: a select query with one unmatched opening bracket. -/
theorem C9_brace_validation_witness :
    SPARQLClient.validateQuery "select ?s where \x7b" =
      { valid := false, error := some "Mismatched curly brackets in query" }
    ∧ GraphDBApp.executeQueryDispatch "select ?s where \x7b" =
      GraphDBApp.ExecuteAction.validationError "Mismatched curly brackets in query" :=
  C9_brace_validation "select ?s where \x7b" (by decide) (by decide) (by decide) (by decide)

/-- `pushBounded` always leaves at most the 50 most recent entries. -/
theorem pushBounded_eq_take (e : GraphDBApp.HistoryEntry)
    (h : List GraphDBApp.HistoryEntry) (hl : h.length ≤ 50) :
    GraphDBApp.pushBounded e h = (e :: h).take 50 := by
  rw [GraphDBApp.pushBounded]
  by_cases hc : (e :: h).length > 50
  · simp only [hc, if_pos]
  · rw [if_neg hc]
    exact (List.take_of_length_le (by simp only [List.length_cons] at hc ⊢; omega)).symm

/-- C4: the history is kept most-recent-first; after any insertion it
never exceeds 50 entries (entries beyond index 49 are discarded); a new
entry whose query text equals the query text of the current front entry
is dropped, so recording the same query text twice in immediate
succession adds only one entry. -/
theorem C4_history_bounded_dedup (history : List GraphDBApp.HistoryEntry)
    (q ts ts2 : String) (r r2 : GraphDBApp.ResultsSummary)
    (hlen : history.length ≤ 50) :
    (GraphDBApp.addToQueryHistory history q ts r).length ≤ 50
    ∧ (history.head?.map GraphDBApp.HistoryEntry.query = some q →
        GraphDBApp.addToQueryHistory history q ts r = history)
    ∧ (history.head?.map GraphDBApp.HistoryEntry.query ≠ some q →
        GraphDBApp.addToQueryHistory history q ts r =
          (GraphDBApp.mkHistoryEntry q ts r :: history).take 50)
    ∧ GraphDBApp.addToQueryHistory
        (GraphDBApp.addToQueryHistory history q ts r) q ts2 r2 =
        GraphDBApp.addToQueryHistory history q ts r := by
  match history with
  | [] =>
    have hstep : GraphDBApp.addToQueryHistory [] q ts r =
        [GraphDBApp.mkHistoryEntry q ts r] := by
      rw [GraphDBApp.addToQueryHistory, pushBounded_eq_take _ _ (by simp)]
      rfl
    refine ⟨by rw [hstep]; simp, by intro h; simp at h, ?_, ?_⟩
    · intro _
      rw [hstep]
      rfl
    · rw [hstep, GraphDBApp.addToQueryHistory,
        if_pos (show (GraphDBApp.mkHistoryEntry q ts r).query = q from rfl)]
  | e0 :: rest =>
    by_cases hq : e0.query = q
    · have hstep : GraphDBApp.addToQueryHistory (e0 :: rest) q ts r = e0 :: rest := by
        rw [GraphDBApp.addToQueryHistory, if_pos hq]
      refine ⟨by rw [hstep]; exact hlen, fun _ => hstep, ?_, ?_⟩
      · intro h
        exact absurd (by simp [hq]) h
      · rw [hstep, GraphDBApp.addToQueryHistory, if_pos hq]
    · have hstep : GraphDBApp.addToQueryHistory (e0 :: rest) q ts r =
          (GraphDBApp.mkHistoryEntry q ts r :: e0 :: rest).take 50 := by
        rw [GraphDBApp.addToQueryHistory, if_neg hq, pushBounded_eq_take _ _ hlen]
      have htake : (GraphDBApp.mkHistoryEntry q ts r :: e0 :: rest).take 50 =
          GraphDBApp.mkHistoryEntry q ts r :: (e0 :: rest).take 49 := rfl
      refine ⟨?_, ?_, fun _ => hstep, ?_⟩
      · rw [hstep]
        simp only [List.length_take]
        omega
      · intro h
        simp only [List.head?_cons, Option.map_some] at h
        exact absurd (Option.some.inj h) hq
      · rw [hstep, htake, GraphDBApp.addToQueryHistory,
          if_pos (show (GraphDBApp.mkHistoryEntry q ts r).query = q from rfl)]

/-- Witness for C4: recording the same query twice in succession on a
singleton history yields a two-entry history once, then no change. -/
theorem C4_history_bounded_dedup_witness :
    (GraphDBApp.addToQueryHistory
      [{ query := "old", timestamp := "t0", success := true, executionTime := 1,
         qtype := some "select", count := 2 }] "q1" "t1"
      { success := true, executionTime := 3, qtype := some "select", count := some 2 }).length ≤ 50
    ∧ GraphDBApp.addToQueryHistory
        (GraphDBApp.addToQueryHistory
          [{ query := "old", timestamp := "t0", success := true, executionTime := 1,
             qtype := some "select", count := 2 }] "q1" "t1"
          { success := true, executionTime := 3, qtype := some "select", count := some 2 })
        "q1" "t2" { success := false, executionTime := 9, qtype := none, count := none } =
      GraphDBApp.addToQueryHistory
        [{ query := "old", timestamp := "t0", success := true, executionTime := 1,
           qtype := some "select", count := 2 }] "q1" "t1"
        { success := true, executionTime := 3, qtype := some "select", count := some 2 } := by
  have h := C4_history_bounded_dedup
    [{ query := "old", timestamp := "t0", success := true, executionTime := 1,
       qtype := some "select", count := 2 }] "q1" "t1" "t2"
    { success := true, executionTime := 3, qtype := some "select", count := some 2 }
    { success := false, executionTime := 9, qtype := none, count := none }
    (by simp)
  exact ⟨h.1, h.2.2.2⟩

/-- C5: `goToPage` is a no-op when the requested page is below 1 or
beyond `ceil(totalRows / pageSize)`, and otherwise moves to the page;
the displayed slice for page `n` is exactly
`[(n-1)*pageSize, min(n*pageSize, totalRows))`. -/
theorem C5_pagination (hdr : JsonVal) (rows : List JSRow) (c t : Nat)
    (raw : Option JsonVal) (cur page : Int) :
    ((page < 1 ∨ ((jsCeilDiv rows.length 50 : Nat) : Int) < page) →
      GraphDBApp.goToPage
        (some (SPARQLClient.FormattedResult.select hdr rows c t raw)) 50 cur page = cur)
    ∧ (1 ≤ page → page ≤ ((jsCeilDiv rows.length 50 : Nat) : Int) →
      GraphDBApp.goToPage
        (some (SPARQLClient.FormattedResult.select hdr rows c t raw)) 50 cur page = page)
    ∧ (∀ n : Nat, 1 ≤ n →
      GraphDBApp.paginatedRows rows 50 n =
        (rows.take (min (n * 50) rows.length)).drop ((n - 1) * 50)) := by
  refine ⟨?_, ?_, ?_⟩
  · intro h
    simp [GraphDBApp.goToPage, GraphDBApp.resultRows, h]
  · intro h1 h2
    have hcond : ¬ (page < 1 ∨ ((jsCeilDiv rows.length 50 : Nat) : Int) < page) := by
      push_neg
      exact ⟨h1, h2⟩
    simp [GraphDBApp.goToPage, GraphDBApp.resultRows, hcond]
  · intro n hn
    have harith : (n - 1) * 50 + 50 = n * 50 := by omega
    simp only [GraphDBApp.paginatedRows, jsSlice, harith]

/-- Witness for C5 at 120 rows and page size 50: the page count is 3,
`goTo(4)` from page 3 stays at 3, `goTo(3)` lands on 3, and page 3 shows
rows [100, 120). -/
theorem C5_pagination_witness :
    jsCeilDiv rows120.length 50 = 3
    ∧ GraphDBApp.goToPage
        (some (SPARQLClient.FormattedResult.select (JsonVal.arr []) rows120 120 9 none))
        50 3 4 = 3
    ∧ GraphDBApp.goToPage
        (some (SPARQLClient.FormattedResult.select (JsonVal.arr []) rows120 120 9 none))
        50 1 3 = 3
    ∧ GraphDBApp.paginatedRows rows120 50 3 =
        (rows120.take (min (3 * 50) rows120.length)).drop ((3 - 1) * 50) :=
  ⟨by decide,
   (C5_pagination (JsonVal.arr []) rows120 120 9 none 3 4).1 (Or.inr (by decide)),
   (C5_pagination (JsonVal.arr []) rows120 120 9 none 1 3).2.1 (by decide) (by decide),
   (C5_pagination (JsonVal.arr []) rows120 120 9 none 1 3).2.2 3 (by decide)⟩

/-- Appending a binding for a fresh key does not change other lookups. -/
theorem alookup_append_single_ne {α : Type} (row : List (String × α))
    (k q : String) (v : α) (h : q ≠ k) :
    alookup q (row ++ [(k, v)]) = alookup q row := by
  induction row with
  | nil =>
    have hkq : ¬ k = q := fun he => h he.symm
    simp only [List.nil_append, alookup]
    rw [if_neg hkq]
  | cons p rest ih =>
    rw [List.cons_append, alookup, alookup]
    by_cases hp : p.1 = q
    · rw [if_pos hp, if_pos hp]
    · rw [if_neg hp, if_neg hp]
      exact ih

/-- C10: for every non-empty data sequence, the CSV export's header line
consists exactly of the keys of the first row, every row (the first
included) is projected onto those keys only, and a key that appears in a
later row but not in the first row is silently omitted: adding such a key
to any row leaves the output unchanged. -/
theorem C10_csv_headers_from_first_row (first : JSRow) (rest : List JSRow) :
    (exportToCSV (first :: rest) =
      some (String.intercalate "\n"
        (String.intercalate "," (first.map Prod.fst) ::
          (first :: rest).map (fun row =>
            String.intercalate ","
              ((first.map Prod.fst).map (fun h => csvField (jsRowGet row h)))))))
    ∧ (∀ (pre post : List JSRow) (row : JSRow) (k : String) (v : Option JsonVal),
        ¬ k ∈ first.map Prod.fst →
        exportToCSV (first :: (pre ++ (row ++ [(k, v)]) :: post)) =
          exportToCSV (first :: (pre ++ row :: post))) := by
  constructor
  · rfl
  · intro pre post row k v hk
    have hline : (first.map Prod.fst).map (fun h => csvField (jsRowGet (row ++ [(k, v)]) h))
        = (first.map Prod.fst).map (fun h => csvField (jsRowGet row h)) := by
      apply List.map_congr_left
      intro a ha
      have hne : a ≠ k := fun he => hk (he ▸ ha)
      rw [jsRowGet, jsRowGet, alookup_append_single_ne row k a v hne]
    rw [exportToCSV, exportToCSV]
    simp only [List.map_cons, List.map_append]
    rw [hline]

/-- Witness for C10: adding a key unknown to the first row to a later row
leaves the exported CSV unchanged. -/
theorem C10_csv_headers_from_first_row_witness :
    exportToCSV [[("a", some (JsonVal.str "1"))],
                 [("a", some (JsonVal.str "2")), ("b", some (JsonVal.str "3"))]] =
      exportToCSV [[("a", some (JsonVal.str "1"))], [("a", some (JsonVal.str "2"))]] :=
  (C10_csv_headers_from_first_row [("a", some (JsonVal.str "1"))] []).2 [] []
    [("a", some (JsonVal.str "2"))] "b" (some (JsonVal.str "3")) (by decide)

/-- C7: the flat-table export aborts with the empty-export outcome (the
'No data to export' warning, no artifact) exactly when the derived row
set is empty, which happens only for a select result with no rows or a
graph result whose triples value is the empty array; every other current
result exports an artifact.  The check lives only in the export path:
normalization itself returns such empty results as successes. -/
theorem C7_empty_export (cur : SPARQLClient.FormattedResult) :
    (GraphDBApp.deriveExportData cur = [] →
      GraphDBApp.appExportToCSV cur = GraphDBApp.ExportOutcome.emptyWarning)
    ∧ (GraphDBApp.deriveExportData cur ≠ [] →
      ∃ csv, GraphDBApp.appExportToCSV cur = GraphDBApp.ExportOutcome.file csv)
    ∧ (GraphDBApp.deriveExportData cur = [] ↔
        ((∃ hd c t raw, cur = SPARQLClient.FormattedResult.select hd [] c t raw)
          ∨ (∃ c t raw,
              cur = SPARQLClient.FormattedResult.graph (some (JsonVal.arr [])) c t raw))) := by
  refine ⟨?_, ?_, ?_⟩
  · intro h
    simp [GraphDBApp.appExportToCSV, h]
  · intro h
    rcases hd : GraphDBApp.deriveExportData cur with _ | ⟨d0, ds⟩
    · exact absurd hd h
    · rw [GraphDBApp.appExportToCSV.eq_def, hd]
      simp [exportToCSV]
  · cases cur with
    | err e t =>
      simp [GraphDBApp.deriveExportData, GraphDBApp.formattedToRow]
    | select hd rows c t raw =>
      simp [GraphDBApp.deriveExportData]
    | ask res t raw =>
      simp [GraphDBApp.deriveExportData]
    | other qt d t =>
      simp [GraphDBApp.deriveExportData, GraphDBApp.formattedToRow]
    | graph triples c t raw =>
      cases triples with
      | none => simp [GraphDBApp.deriveExportData, GraphDBApp.formattedToRow]
      | some tv =>
        cases tv with
        | null =>
          simp [GraphDBApp.deriveExportData, jsTruthy, GraphDBApp.formattedToRow]
        | bool b =>
          cases b <;>
            simp [GraphDBApp.deriveExportData, jsTruthy, GraphDBApp.formattedToRow]
        | num n =>
          by_cases hn : n = 0
          · simp [GraphDBApp.deriveExportData, jsTruthy, hn, GraphDBApp.formattedToRow]
          · simp [GraphDBApp.deriveExportData, jsTruthy, hn, GraphDBApp.formattedToRow]
        | str s =>
          by_cases hs : s = ""
          · simp [GraphDBApp.deriveExportData, jsTruthy, hs, GraphDBApp.formattedToRow]
          · simp [GraphDBApp.deriveExportData, jsTruthy, hs, GraphDBApp.formattedToRow]
        | arr ts =>
          simp [GraphDBApp.deriveExportData, jsTruthy]
        | obj fs =>
          simp [GraphDBApp.deriveExportData, jsTruthy, GraphDBApp.formattedToRow]

/-- Witness for C7: an empty select result aborts with the warning, a
boolean ask result exports a file. -/
theorem C7_empty_export_witness :
    GraphDBApp.appExportToCSV (SPARQLClient.FormattedResult.select (JsonVal.arr []) [] 0 5 none) =
      GraphDBApp.ExportOutcome.emptyWarning
    ∧ ∃ csv, GraphDBApp.appExportToCSV (SPARQLClient.FormattedResult.ask (JsonVal.bool true) 5 none) =
        GraphDBApp.ExportOutcome.file csv :=
  ⟨(C7_empty_export (SPARQLClient.FormattedResult.select (JsonVal.arr []) [] 0 5 none)).1 rfl,
   (C7_empty_export (SPARQLClient.FormattedResult.ask (JsonVal.bool true) 5 none)).2.1
     (by simp [GraphDBApp.deriveExportData])⟩
